import Mathlib

/-!
Shallow embedding of the `chess_escrow` Solana/Anchor program
(`programs/escrow/programs/escrow/src/lib.rs`).

Machine integers: `u64`/`u32` fields are modelled as `Nat` with explicit
reduction modulo `2^64` / `2^32` at the arithmetic that can overflow;
`i64` timestamps are modelled as `Int`.  Public keys are modelled as an
opaque `Nat` identity (`Pubkey::default()` is `0`).  Lamport movement is
modelled as a list of `Transfer` records; the payment rail (the system
program) is a parameter `rail : Transfer → Bool` deciding whether a given
transfer succeeds.  Each instruction is a total function returning
`Except Err (GameEscrow × List Transfer)`; an `error` result models a
failed Solana transaction, in which no account mutation is committed
(Solana rolls back every account write of a failed transaction), which is
made explicit by `obsState` / `obsTransfers` below.
-/

namespace ChessEscrow

abbrev Pubkey := Nat

/-- `Pubkey::default()` — the all-zero public key. -/
def pkDefault : Pubkey := 0

def U64MOD : Nat := 2 ^ 64
def U32MOD : Nat := 2 ^ 32

/-- `u64::checked_mul`. -/
def checkedMul64 (a b : Nat) : Option Nat :=
  if a * b < U64MOD then some (a * b) else none

/-- `u64::checked_div`. -/
def checkedDiv64 (a b : Nat) : Option Nat :=
  if b = 0 then none else some (a / b)

/-- `u64::checked_sub`. -/
def checkedSub64 (a b : Nat) : Option Nat :=
  if b ≤ a then some (a - b) else none

/-- Reinterpret a `u64` value as an `i64` (two's complement cast). -/
def u64ToI64 (n : Nat) : Int :=
  if n % U64MOD < 2 ^ 63 then ((n % U64MOD : Nat) : Int)
  else ((n % U64MOD : Nat) : Int) - (U64MOD : Int)

inductive GameState where
  | WaitingForPlayers
  | WaitingForDeposits
  | InProgress
  | Finished
  | Cancelled
deriving DecidableEq, Repr

inductive GameWinner where
  | None
  | White
  | Black
  | Draw
deriving DecidableEq, Repr

inductive GameEndReason where
  | Checkmate
  | Resignation
  | Timeout
  | Agreement
  | Stalemate
  | Abandonment
deriving DecidableEq, Repr

inductive ChessError where
  | RoomIdTooLong
  | InvalidStakeAmount
  | InvalidTimeLimit
  | GameNotWaitingForPlayers
  | CannotPlayAgainstSelf
  | InvalidGameStateForDeposit
  | UnauthorizedPlayer
  | AlreadyDeposited
  | GameNotInProgress
  | MoveNotationTooLong
  | MoveTimeExceeded
  | InvalidWinnerDeclaration
  | InvalidDrawDeclaration
  | CannotCancelStartedGame
  | TimeNotExceeded
  | NotPlayerTurn
  | InvalidMoveFormat
  | ImpossibleMove
deriving DecidableEq, Repr

/-- An instruction error: either a program `ChessError` or a failure of a
system-program lamport transfer (e.g. insufficient funds). -/
inductive Err where
  | chess (e : ChessError)
  | transferFailed
deriving DecidableEq, Repr

/-- A lamport custody slot: a wallet account, or the session's PDA vault. -/
inductive Slot where
  | account (pk : Pubkey)
  | vault
deriving DecidableEq, Repr

/-- One system-program lamport transfer. -/
structure Transfer where
  src : Slot
  dst : Slot
  amount : Nat
deriving DecidableEq, Repr

inductive TimeControlType where
  | Rapid
  | Blitz
  | Bullet
  | Custom
deriving DecidableEq, Repr

structure TimeControl where
  initial_time : Nat
  increment : Nat
  delay : Nat
  time_control_type : TimeControlType
deriving DecidableEq, Repr

structure GameFlags where
  is_tournament_game : Bool
  is_rated : Bool
  allow_draw_offers : Bool
  allow_resignation : Bool
  require_move_validation : Bool
  enable_anti_cheat : Bool
deriving DecidableEq, Repr

/-- A recorded move.  The on-chain `move_notation : String` field is named
`move_text` here; the `[u8; 32]` position hash is modelled as a `Nat`. -/
structure MoveRecord where
  move_number : Nat
  from_square : String
  to_square : String
  piece : String
  captured_piece : Option String
  move_text : String
  position_hash : Nat
  timestamp : Int
  time_spent : Nat
  is_check : Bool
  is_checkmate : Bool
  is_castle : Bool
  is_en_passant : Bool
  is_promotion : Bool
  promotion_piece : Option String
deriving DecidableEq, Repr

/-- The `GameEscrow` account. -/
structure GameEscrow where
  room_id : String
  player_white : Pubkey
  player_black : Pubkey
  stake_amount : Nat
  total_deposited : Nat
  game_state : GameState
  winner : GameWinner
  created_at : Int
  started_at : Int
  finished_at : Int
  time_limit_seconds : Int
  fee_collector : Pubkey
  white_deposited : Bool
  black_deposited : Bool
  move_count : Nat
  last_move_time : Int
  time_control : TimeControl
  position_hash : Nat
  move_history : List MoveRecord
  anti_cheat_flags : Nat
  rating_white : Nat
  rating_black : Nat
  tournament_id : Option String
  game_flags : GameFlags
deriving DecidableEq, Repr

/-- Issue one transfer through the payment rail: succeeds exactly when the
rail accepts it (a failed system-program CPI aborts the instruction). -/
def doTransfer (rail : Transfer → Bool) (src dst : Slot) (amount : Nat) :
    Except Err Transfer :=
  let t : Transfer := ⟨src, dst, amount⟩
  if rail t then .ok t else .error .transferFailed

/-- The fee computation of `distribute_funds`:
`vault_balance.checked_mul(1).and_then(|x| x.checked_div(100)).unwrap_or(0)`. -/
def feeAmount (vault_balance : Nat) : Nat :=
  ((checkedMul64 vault_balance 1).bind (fun x => checkedDiv64 x 100)).getD 0

/-- `DeclareResult::distribute_funds` (lib.rs lines 750–861). -/
def distributeFundsDeclare (winner : GameWinner) (vault_balance : Nat)
    (player_white player_black fee_collector : Pubkey)
    (rail : Transfer → Bool) : Except Err (List Transfer) :=
  if vault_balance = 0 then .ok []
  else
    let fee_amount := feeAmount vault_balance
    let remaining_amount := (checkedSub64 vault_balance fee_amount).getD 0
    let feeStep : Except Err (List Transfer) :=
      if fee_amount > 0 then
        match doTransfer rail Slot.vault (Slot.account fee_collector) fee_amount with
        | .ok t => .ok [t]
        | .error e => .error e
      else .ok []
    match feeStep with
    | .error e => .error e
    | .ok ts =>
      match winner with
      | GameWinner.White =>
        if remaining_amount > 0 then
          match doTransfer rail Slot.vault (Slot.account player_white) remaining_amount with
          | .ok t => .ok (ts ++ [t])
          | .error e => .error e
        else .ok ts
      | GameWinner.Black =>
        if remaining_amount > 0 then
          match doTransfer rail Slot.vault (Slot.account player_black) remaining_amount with
          | .ok t => .ok (ts ++ [t])
          | .error e => .error e
        else .ok ts
      | GameWinner.Draw =>
        let half_amount := remaining_amount / 2
        if half_amount > 0 then
          match doTransfer rail Slot.vault (Slot.account player_white) half_amount with
          | .error e => .error e
          | .ok t1 =>
            match doTransfer rail Slot.vault (Slot.account player_black) half_amount with
            | .error e => .error e
            | .ok t2 => .ok (ts ++ [t1, t2])
        else .ok ts
      | GameWinner.None => .error (.chess .InvalidWinnerDeclaration)

/-- `HandleTimeout::distribute_funds` (lib.rs lines 865–943); unlike the
`DeclareResult` version, any winner other than `White`/`Black` is rejected. -/
def distributeFundsTimeout (winner : GameWinner) (vault_balance : Nat)
    (player_white player_black fee_collector : Pubkey)
    (rail : Transfer → Bool) : Except Err (List Transfer) :=
  if vault_balance = 0 then .ok []
  else
    let fee_amount := feeAmount vault_balance
    let remaining_amount := (checkedSub64 vault_balance fee_amount).getD 0
    let feeStep : Except Err (List Transfer) :=
      if fee_amount > 0 then
        match doTransfer rail Slot.vault (Slot.account fee_collector) fee_amount with
        | .ok t => .ok [t]
        | .error e => .error e
      else .ok []
    match feeStep with
    | .error e => .error e
    | .ok ts =>
      match winner with
      | GameWinner.White =>
        if remaining_amount > 0 then
          match doTransfer rail Slot.vault (Slot.account player_white) remaining_amount with
          | .ok t => .ok (ts ++ [t])
          | .error e => .error e
        else .ok ts
      | GameWinner.Black =>
        if remaining_amount > 0 then
          match doTransfer rail Slot.vault (Slot.account player_black) remaining_amount with
          | .ok t => .ok (ts ++ [t])
          | .error e => .error e
        else .ok ts
      | _ => .error (.chess .InvalidWinnerDeclaration)

/-- Byte value of the `i`-th character of a square string (`as u8`). -/
def charAt (s : String) (i : Nat) : Nat :=
  ((s.data.getD i 'a').toNat) % 256

/-- `is_impossible_move` (lib.rs lines 130–156). -/
def isImpossibleMove (fromSq toSq piece : String) : Bool :=
  if fromSq = toSq then true
  else if fromSq.length ≠ 2 ∨ toSq.length ≠ 2 then true
  else
    let from_file := charAt fromSq 0
    let from_rank := charAt fromSq 1
    let to_file := charAt toSq 0
    let to_rank := charAt toSq 1
    if from_file < 97 ∨ from_file > 104 ∨ from_rank < 49 ∨ from_rank > 56 then true
    else if to_file < 97 ∨ to_file > 104 ∨ to_rank < 49 ∨ to_rank > 56 then true
    else false

/-- Consecutive-timestamp scan of `is_suspicious_move_pattern`: true when two
adjacent timestamps are less than one second apart. -/
def timestampsClose : List Int → Bool
  | a :: b :: rest => if b - a < 1 then true else timestampsClose (b :: rest)
  | _ => false

/-- `is_suspicious_move_pattern` (lib.rs lines 158–179). -/
def isSuspiciousMovePattern (move_history : List MoveRecord) : Bool :=
  if move_history.length < 3 then false
  else timestampsClose ((move_history.drop (move_history.length - 3)).map (·.timestamp))

/-- The argument bundle of `record_move` (the on-chain `move_notation`
argument is named `move_text`, the `[u8; 32]` hash is a `Nat`). -/
structure MoveArgs where
  move_text : String
  game_position_hash : Nat
  from_square : String
  to_square : String
  piece : String
  captured_piece : Option String
  time_spent : Nat
  is_check : Bool
  is_checkmate : Bool
  is_castle : Bool
  is_en_passant : Bool
  is_promotion : Bool
  promotion_piece : Option String
deriving DecidableEq, Repr

/-- `initialize_game` (lib.rs lines 186–246). -/
def initializeGame (room_id : String) (stake_amount : Nat)
    (time_limit_seconds : Int) (player fee_collector : Pubkey) (now : Int) :
    Except Err (GameEscrow × List Transfer) :=
  if ¬ (room_id.length ≤ 32) then .error (.chess .RoomIdTooLong)
  else if ¬ (stake_amount > 0) then .error (.chess .InvalidStakeAmount)
  else if ¬ (time_limit_seconds > 0) then .error (.chess .InvalidTimeLimit)
  else
    .ok ({ room_id := room_id
           player_white := player
           player_black := pkDefault
           stake_amount := stake_amount
           total_deposited := 0
           game_state := GameState.WaitingForPlayers
           winner := GameWinner.None
           created_at := now
           started_at := 0
           finished_at := 0
           time_limit_seconds := time_limit_seconds
           fee_collector := fee_collector
           white_deposited := false
           black_deposited := false
           move_count := 0
           last_move_time := 0
           time_control :=
             { initial_time := time_limit_seconds.toNat % U64MOD
               increment := 0
               delay := 0
               time_control_type := TimeControlType.Custom }
           position_hash := 0
           move_history := []
           anti_cheat_flags := 0
           rating_white := 1500
           rating_black := 1500
           tournament_id := none
           game_flags :=
             { is_tournament_game := false
               is_rated := false
               allow_draw_offers := true
               allow_resignation := true
               require_move_validation := true
               enable_anti_cheat := true } }, [])

/-- `join_game` (lib.rs lines 249–272). -/
def joinGame (st : GameEscrow) (player : Pubkey) :
    Except Err (GameEscrow × List Transfer) :=
  if ¬ (st.game_state = GameState.WaitingForPlayers) then
    .error (.chess .GameNotWaitingForPlayers)
  else if ¬ (st.player_white ≠ player) then
    .error (.chess .CannotPlayAgainstSelf)
  else
    .ok ({ st with player_black := player
                   game_state := GameState.WaitingForDeposits }, [])

/-- `deposit_stake` (lib.rs lines 275–339). -/
def depositStake (st : GameEscrow) (player : Pubkey) (now : Int)
    (rail : Transfer → Bool) : Except Err (GameEscrow × List Transfer) :=
  if ¬ (st.game_state = GameState.WaitingForDeposits ∨
        st.game_state = GameState.WaitingForPlayers) then
    .error (.chess .InvalidGameStateForDeposit)
  else if ¬ (player = st.player_white ∨ player = st.player_black) then
    .error (.chess .UnauthorizedPlayer)
  else
    let is_white := player = st.player_white
    if (if is_white then st.white_deposited else st.black_deposited) then
      .error (.chess .AlreadyDeposited)
    else
      match doTransfer rail (Slot.account player) Slot.vault st.stake_amount with
      | .error e => .error e
      | .ok t =>
        let st1 :=
          if is_white then { st with white_deposited := true }
          else { st with black_deposited := true }
        let st2 := { st1 with
          total_deposited := (st1.total_deposited + st1.stake_amount) % U64MOD }
        let st3 :=
          if st2.white_deposited ∧ st2.black_deposited then
            { st2 with game_state := GameState.InProgress
                       started_at := now
                       last_move_time := now }
          else st2
        .ok (st3, [t])

/-- `record_move` (lib.rs lines 342–449). -/
def recordMove (st : GameEscrow) (player : Pubkey) (now : Int)
    (a : MoveArgs) : Except Err (GameEscrow × List Transfer) :=
  if ¬ (st.game_state = GameState.InProgress) then
    .error (.chess .GameNotInProgress)
  else if ¬ (player = st.player_white ∨ player = st.player_black) then
    .error (.chess .UnauthorizedPlayer)
  else if ¬ (a.move_text.length ≤ 10) then
    .error (.chess .MoveNotationTooLong)
  else
    let is_white_turn := st.move_count % 2 = 0
    let is_white_player := player = st.player_white
    if ¬ (is_white_turn ↔ is_white_player) then
      .error (.chess .NotPlayerTurn)
    else if st.time_control.initial_time > 0 ∧
        ¬ (now - st.last_move_time ≤
           u64ToI64 ((st.time_control.initial_time + st.time_control.increment) % U64MOD)) then
      .error (.chess .MoveTimeExceeded)
    else if st.game_flags.enable_anti_cheat ∧
        ¬ (a.from_square.length = 2 ∧ a.to_square.length = 2) then
      .error (.chess .InvalidMoveFormat)
    else if st.game_flags.enable_anti_cheat ∧
        isImpossibleMove a.from_square a.to_square a.piece then
      .error (.chess .ImpossibleMove)
    else
      let flags' :=
        if st.game_flags.enable_anti_cheat ∧ isSuspiciousMovePattern st.move_history then
          st.anti_cheat_flags ||| 1
        else st.anti_cheat_flags
      let mrec : MoveRecord :=
        { move_number := (st.move_count + 1) % U32MOD
          from_square := a.from_square
          to_square := a.to_square
          piece := a.piece
          captured_piece := a.captured_piece
          move_text := a.move_text
          position_hash := a.game_position_hash
          timestamp := now
          time_spent := a.time_spent
          is_check := a.is_check
          is_checkmate := a.is_checkmate
          is_castle := a.is_castle
          is_en_passant := a.is_en_passant
          is_promotion := a.is_promotion
          promotion_piece := a.promotion_piece }
      let st1 := { st with
        anti_cheat_flags := flags'
        move_history := st.move_history ++ [mrec]
        move_count := (st.move_count + 1) % U32MOD
        last_move_time := now
        position_hash := a.game_position_hash }
      let st2 :=
        if a.is_checkmate then
          { st1 with
            game_state := GameState.Finished
            winner := if is_white_player then GameWinner.White else GameWinner.Black
            finished_at := now }
        else st1
      .ok (st2, [])

/-- `declare_result` (lib.rs lines 452–520). -/
def declareResult (st : GameEscrow) (declarer : Pubkey) (winner : GameWinner)
    (reason : GameEndReason) (now : Int) (vault_balance : Nat)
    (rail : Transfer → Bool) : Except Err (GameEscrow × List Transfer) :=
  if ¬ (st.game_state = GameState.InProgress) then
    .error (.chess .GameNotInProgress)
  else if ¬ (declarer = st.player_white ∨ declarer = st.player_black) then
    .error (.chess .UnauthorizedPlayer)
  else
    let validation : Except Err Unit :=
      match winner with
      | GameWinner.White =>
        if (reason = GameEndReason.Resignation ∧ declarer = st.player_black) ∨
           (reason = GameEndReason.Timeout ∧ declarer = st.player_white) ∨
           (reason = GameEndReason.Checkmate ∧ declarer = st.player_white) then
          .ok ()
        else .error (.chess .InvalidWinnerDeclaration)
      | GameWinner.Black =>
        if (reason = GameEndReason.Resignation ∧ declarer = st.player_white) ∨
           (reason = GameEndReason.Timeout ∧ declarer = st.player_black) ∨
           (reason = GameEndReason.Checkmate ∧ declarer = st.player_black) then
          .ok ()
        else .error (.chess .InvalidWinnerDeclaration)
      | GameWinner.Draw =>
        if reason = GameEndReason.Agreement ∨ reason = GameEndReason.Stalemate then
          .ok ()
        else .error (.chess .InvalidDrawDeclaration)
      | GameWinner.None => .error (.chess .InvalidWinnerDeclaration)
    match validation with
    | .error e => .error e
    | .ok _ =>
      let st' := { st with
        winner := winner
        game_state := GameState.Finished
        finished_at := now }
      match distributeFundsDeclare winner vault_balance
            st.player_white st.player_black st.fee_collector rail with
      | .error e => .error e
      | .ok ts => .ok (st', ts)

/-- The winner `handle_timeout` derives from `move_count` parity. -/
def timeoutWinner (st : GameEscrow) : GameWinner :=
  if st.move_count % 2 = 0 then GameWinner.Black else GameWinner.White

/-- `handle_timeout` (lib.rs lines 523–566). -/
def handleTimeout (st : GameEscrow) (now : Int) (vault_balance : Nat)
    (rail : Transfer → Bool) : Except Err (GameEscrow × List Transfer) :=
  if ¬ (st.game_state = GameState.InProgress) then
    .error (.chess .GameNotInProgress)
  else
    let time_elapsed := now - st.last_move_time
    if ¬ (time_elapsed > st.time_limit_seconds) then
      .error (.chess .TimeNotExceeded)
    else
      let winner := timeoutWinner st
      let st' := { st with
        winner := winner
        game_state := GameState.Finished
        finished_at := now }
      match distributeFundsTimeout winner vault_balance
            st.player_white st.player_black st.fee_collector rail with
      | .error e => .error e
      | .ok ts => .ok (st', ts)

/-- `cancel_game` (lib.rs lines 569–638). -/
def cancelGame (st : GameEscrow) (player : Pubkey) (vault_balance : Nat)
    (rail : Transfer → Bool) : Except Err (GameEscrow × List Transfer) :=
  if ¬ (st.game_state = GameState.WaitingForPlayers ∨
        st.game_state = GameState.WaitingForDeposits) then
    .error (.chess .CannotCancelStartedGame)
  else if ¬ (player = st.player_white ∨ player = st.player_black) then
    .error (.chess .UnauthorizedPlayer)
  else
    let refunds : Except Err (List Transfer) :=
      if vault_balance > 0 then
        match (if st.white_deposited then
                 match doTransfer rail Slot.vault (Slot.account st.player_white)
                       st.stake_amount with
                 | .ok t => Except.ok [t]
                 | .error e => Except.error e
               else Except.ok []) with
        | .error e => .error e
        | .ok ts1 =>
          if st.black_deposited then
            match doTransfer rail Slot.vault (Slot.account st.player_black)
                  st.stake_amount with
            | .ok t => .ok (ts1 ++ [t])
            | .error e => .error e
          else .ok ts1
      else .ok []
    match refunds with
    | .error e => .error e
    | .ok ts => .ok ({ st with game_state := GameState.Cancelled }, ts)

/-- The observable post-state of an instruction result: a failed Solana
transaction commits nothing, so the pre-state is retained. -/
def obsState (r : Except Err (GameEscrow × List Transfer)) (pre : GameEscrow) :
    GameEscrow :=
  match r with
  | .ok (s, _) => s
  | .error _ => pre

/-- The lamport transfers an instruction result actually commits (none on
failure). -/
def obsTransfers (r : Except Err (GameEscrow × List Transfer)) : List Transfer :=
  match r with
  | .ok (_, ts) => ts
  | .error _ => []

/-- A payment rail on which every transfer succeeds. -/
def railOk : Transfer → Bool := fun _ => true

/-- One escrow instruction together with its non-state arguments. -/
inductive Op where
  | init (room_id : String) (stake : Nat) (tl : Int) (p fc : Pubkey)
  | join (p : Pubkey)
  | deposit (p : Pubkey)
  | record (p : Pubkey) (a : MoveArgs)
  | declare (d : Pubkey) (w : GameWinner) (r : GameEndReason) (vb : Nat)
  | timeout (vb : Nat)
  | cancel (p : Pubkey) (vb : Nat)

/-- Run one instruction against a session state. -/
def runOp (o : Op) (st : GameEscrow) (now : Int) (rail : Transfer → Bool) :
    Except Err (GameEscrow × List Transfer) :=
  match o with
  | .init room stake tl p fc => initializeGame room stake tl p fc now
  | .join p => joinGame st p
  | .deposit p => depositStake st p now rail
  | .record p a => recordMove st p now a
  | .declare d w r vb => declareResult st d w r now vb rail
  | .timeout vb => handleTimeout st now vb rail
  | .cancel p vb => cancelGame st p vb rail

/-- Sum of the amounts a transfer list delivers to one slot. -/
def paidTo : List Transfer → Slot → Nat
  | [], _ => 0
  | t :: ts, d => (if t.dst = d then t.amount else 0) + paidTo ts d

/-- Total amount moved by a transfer list. -/
def sumAmounts : List Transfer → Nat
  | [] => 0
  | t :: ts => t.amount + sumAmounts ts

/-- The deposit-ledger invariant of the spec:
`total_deposited = stake*(white_deposited?1:0) + stake*(black_deposited?1:0)`,
read in `u64` arithmetic (both sides reduced modulo `2^64`). -/
abbrev Inv (s : GameEscrow) : Prop :=
  s.total_deposited =
    (s.stake_amount * (if s.white_deposited then 1 else 0) +
     s.stake_amount * (if s.black_deposited then 1 else 0)) % U64MOD

/-- The authorization matrix of spec §4.4, written from the spec's table:
a win for a player is declarable only by the opponent with reason
Resignation, or by that player themself with reason Timeout or Checkmate;
Draw is declarable by either participant with reason Agreement or
Stalemate; `None` is never declarable. -/
def authMatrixSpec (winner : GameWinner) (reason : GameEndReason)
    (declarer white black : Pubkey) : Prop :=
  match winner with
  | GameWinner.White =>
    (reason = GameEndReason.Resignation ∧ declarer = black) ∨
    ((reason = GameEndReason.Timeout ∨ reason = GameEndReason.Checkmate) ∧
      declarer = white)
  | GameWinner.Black =>
    (reason = GameEndReason.Resignation ∧ declarer = white) ∨
    ((reason = GameEndReason.Timeout ∨ reason = GameEndReason.Checkmate) ∧
      declarer = black)
  | GameWinner.Draw =>
    (reason = GameEndReason.Agreement ∨ reason = GameEndReason.Stalemate) ∧
    (declarer = white ∨ declarer = black)
  | GameWinner.None => False

end ChessEscrow

deriving instance DecidableEq for Except

namespace ChessEscrow

/-- A concrete in-progress session used by the witness theorems:
stake 1000 from each player, both deposited, white to move. -/
def demoEscrow : GameEscrow :=
  { room_id := "room1"
    player_white := 1
    player_black := 2
    stake_amount := 1000
    total_deposited := 2000
    game_state := GameState.InProgress
    winner := GameWinner.None
    created_at := 0
    started_at := 10
    finished_at := 0
    time_limit_seconds := 300
    fee_collector := 3
    white_deposited := true
    black_deposited := true
    move_count := 0
    last_move_time := 10
    time_control :=
      { initial_time := 300, increment := 0, delay := 0
        time_control_type := TimeControlType.Custom }
    position_hash := 0
    move_history := []
    anti_cheat_flags := 0
    rating_white := 1500
    rating_black := 1500
    tournament_id := none
    game_flags :=
      { is_tournament_game := false, is_rated := false
        allow_draw_offers := true, allow_resignation := true
        require_move_validation := true, enable_anti_cheat := true } }

/-- `demoEscrow` after settlement: a finished session. -/
def demoFinished : GameEscrow :=
  { demoEscrow with game_state := GameState.Finished
                    winner := GameWinner.White
                    finished_at := 50 }

/-- A freshly initialized session awaiting a second player: `player_black`
still holds the default key, nobody has deposited. -/
def demoWaiting : GameEscrow :=
  { demoEscrow with game_state := GameState.WaitingForPlayers
                    player_black := pkDefault
                    total_deposited := 0
                    white_deposited := false
                    black_deposited := false
                    started_at := 0
                    last_move_time := 0 }

/-- A legal white move reported as checkmate. -/
def demoMate : MoveArgs :=
  { move_text := "e4"
    game_position_hash := 42
    from_square := "e2"
    to_square := "e4"
    piece := "P"
    captured_piece := none
    time_spent := 5
    is_check := true
    is_checkmate := true
    is_castle := false
    is_en_passant := false
    is_promotion := false
    promotion_piece := none }

/-- A payment rail on which every transfer fails. -/
def railBad : Transfer → Bool := fun _ => false

/-- `demoWaiting` after the white player deposits their stake. -/
def demoDeposited : GameEscrow :=
  { demoWaiting with white_deposited := true, total_deposited := 1000 }

/-- The move record produced by `demoMate` on `demoEscrow`. -/
def demoMateRec : MoveRecord :=
  { move_number := 1
    from_square := "e2"
    to_square := "e4"
    piece := "P"
    captured_piece := none
    move_text := "e4"
    position_hash := 42
    timestamp := 20
    time_spent := 5
    is_check := true
    is_checkmate := true
    is_castle := false
    is_en_passant := false
    is_promotion := false
    promotion_piece := none }

/-- `demoEscrow` after the checkmate move `demoMate`. -/
def demoMated : GameEscrow :=
  { demoEscrow with game_state := GameState.Finished
                    winner := GameWinner.White
                    finished_at := 20
                    move_count := 1
                    last_move_time := 20
                    position_hash := 42
                    move_history := [demoMateRec] }

lemma U64MOD_eq : U64MOD = 18446744073709551616 := by norm_num [U64MOD]

lemma declare_guard (st : GameEscrow) (d : Pubkey) (w : GameWinner)
    (r : GameEndReason) (now : Int) (vb : Nat) (rail : Transfer → Bool)
    (h : st.game_state ≠ GameState.InProgress) :
    declareResult st d w r now vb rail = .error (.chess .GameNotInProgress) := by
  unfold declareResult
  rw [if_pos h]

lemma timeout_guard (st : GameEscrow) (now : Int) (vb : Nat)
    (rail : Transfer → Bool) (h : st.game_state ≠ GameState.InProgress) :
    handleTimeout st now vb rail = .error (.chess .GameNotInProgress) := by
  unfold handleTimeout
  rw [if_pos h]

lemma finished_no_transfers (o : Op) (st : GameEscrow) (now : Int)
    (rail : Transfer → Bool) (h : st.game_state = GameState.Finished) :
    obsTransfers (runOp o st now rail) = [] := by
  cases o with
  | init room stake tl p fc =>
    simp only [runOp, initializeGame]
    split_ifs <;> simp [obsTransfers]
  | join p => simp [runOp, joinGame, h, obsTransfers]
  | deposit p => simp [runOp, depositStake, h, obsTransfers]
  | record p a => simp [runOp, recordMove, h, obsTransfers]
  | declare d w r vb => simp [runOp, declareResult, h, obsTransfers]
  | timeout vb => simp [runOp, handleTimeout, h, obsTransfers]
  | cancel p vb => simp [runOp, cancelGame, h, obsTransfers]

lemma feeAmount_of_lt (C : Nat) (h : C < U64MOD) : feeAmount C = C / 100 := by
  simp [feeAmount, checkedMul64, checkedDiv64, h]

lemma paidTo_append (l1 l2 : List Transfer) (d : Slot) :
    paidTo (l1 ++ l2) d = paidTo l1 d + paidTo l2 d := by
  induction l1 with
  | nil => simp [paidTo]
  | cons t ts ih => simp [paidTo, ih]; ring

lemma sumAmounts_append (l1 l2 : List Transfer) :
    sumAmounts (l1 ++ l2) = sumAmounts l1 + sumAmounts l2 := by
  induction l1 with
  | nil => simp [sumAmounts]
  | cons t ts ih => simp [sumAmounts, ih]; ring

lemma distributeDeclare_white_eq (vb : Nat) (a b c : Pubkey)
    (h0 : 0 < vb) (hlt : vb < U64MOD) :
    distributeFundsDeclare GameWinner.White vb a b c railOk =
    .ok ((if 0 < vb / 100 then [⟨Slot.vault, Slot.account c, vb / 100⟩] else []) ++
         [⟨Slot.vault, Slot.account a, vb - vb / 100⟩]) := by
  have hfee : feeAmount vb = vb / 100 := feeAmount_of_lt vb hlt
  have hfle : vb / 100 ≤ vb := Nat.div_le_self _ _
  have hrem : 0 < vb - vb / 100 := by
    have := Nat.div_lt_self h0 (by norm_num : 1 < 100)
    omega
  unfold distributeFundsDeclare
  rw [if_neg (by omega)]
  simp only [hfee, checkedSub64, if_pos hfle, Option.getD_some, doTransfer, railOk,
    if_pos trivial]
  split_ifs <;> simp_all

lemma distributeDeclare_black_eq (vb : Nat) (a b c : Pubkey)
    (h0 : 0 < vb) (hlt : vb < U64MOD) :
    distributeFundsDeclare GameWinner.Black vb a b c railOk =
    .ok ((if 0 < vb / 100 then [⟨Slot.vault, Slot.account c, vb / 100⟩] else []) ++
         [⟨Slot.vault, Slot.account b, vb - vb / 100⟩]) := by
  have hfee : feeAmount vb = vb / 100 := feeAmount_of_lt vb hlt
  have hfle : vb / 100 ≤ vb := Nat.div_le_self _ _
  have hrem : 0 < vb - vb / 100 := by
    have := Nat.div_lt_self h0 (by norm_num : 1 < 100)
    omega
  unfold distributeFundsDeclare
  rw [if_neg (by omega)]
  simp only [hfee, checkedSub64, if_pos hfle, Option.getD_some, doTransfer, railOk,
    if_pos trivial]
  split_ifs <;> simp_all

lemma distributeDeclare_draw_eq (vb : Nat) (a b c : Pubkey)
    (h0 : 0 < vb) (hlt : vb < U64MOD) :
    distributeFundsDeclare GameWinner.Draw vb a b c railOk =
    .ok ((if 0 < vb / 100 then [⟨Slot.vault, Slot.account c, vb / 100⟩] else []) ++
         (if 0 < (vb - vb / 100) / 2 then
            [⟨Slot.vault, Slot.account a, (vb - vb / 100) / 2⟩,
             ⟨Slot.vault, Slot.account b, (vb - vb / 100) / 2⟩]
          else [])) := by
  have hfee : feeAmount vb = vb / 100 := feeAmount_of_lt vb hlt
  have hfle : vb / 100 ≤ vb := Nat.div_le_self _ _
  unfold distributeFundsDeclare
  rw [if_neg (by omega)]
  simp only [hfee, checkedSub64, if_pos hfle, Option.getD_some, doTransfer, railOk,
    if_pos trivial]
  split_ifs <;> simp_all

lemma distributeDeclare_ok (w : GameWinner) (vb : Nat) (a b c : Pubkey)
    (hw : w ≠ GameWinner.None) :
    ∃ ts, distributeFundsDeclare w vb a b c railOk = .ok ts := by
  unfold distributeFundsDeclare doTransfer railOk
  cases w <;> simp_all <;> split_ifs <;> simp

lemma distributeTimeout_ok (w : GameWinner) (vb : Nat) (a b c : Pubkey)
    (hw : w = GameWinner.White ∨ w = GameWinner.Black) :
    ∃ ts, distributeFundsTimeout w vb a b c railOk = .ok ts := by
  unfold distributeFundsTimeout doTransfer railOk
  rcases hw with hw | hw <;> subst hw <;> simp_all <;> split_ifs <;> simp

lemma distributeDeclare_none_err (vb : Nat) (a b c : Pubkey) (ts : List Transfer)
    (h0 : 0 < vb)
    (h : distributeFundsDeclare GameWinner.None vb a b c railOk = .ok ts) : False := by
  unfold distributeFundsDeclare at h
  rw [if_neg (by omega)] at h
  simp [doTransfer, railOk] at h
  split_ifs at h

/-- Claim C1: once a session is `Finished`, a second settlement-triggering
call (`declare_result` or `handle_timeout`) fails with the state-guard error
`GameNotInProgress`, commits no state change and moves zero funds. -/
theorem settlement_second_call_rejected (st : GameEscrow) (d : Pubkey)
    (w : GameWinner) (r : GameEndReason) (now : Int) (vb : Nat)
    (rail : Transfer → Bool) (h : st.game_state = GameState.Finished) :
    declareResult st d w r now vb rail = .error (.chess .GameNotInProgress) ∧
    handleTimeout st now vb rail = .error (.chess .GameNotInProgress) ∧
    obsTransfers (declareResult st d w r now vb rail) = [] ∧
    obsTransfers (handleTimeout st now vb rail) = [] ∧
    obsState (declareResult st d w r now vb rail) st = st ∧
    obsState (handleTimeout st now vb rail) st = st := by
  have h1 := declare_guard st d w r now vb rail (by simp [h])
  have h2 := timeout_guard st now vb rail (by simp [h])
  exact ⟨h1, h2, by rw [h1]; rfl, by rw [h2]; rfl, by rw [h1]; rfl, by rw [h2]; rfl⟩

theorem settlement_second_call_rejected_witness :
    declareResult demoFinished 2 GameWinner.White GameEndReason.Resignation 60 2000 railOk =
      .error (.chess .GameNotInProgress) ∧
    handleTimeout demoFinished 60 2000 railOk = .error (.chess .GameNotInProgress) ∧
    obsTransfers (declareResult demoFinished 2 GameWinner.White GameEndReason.Resignation
      60 2000 railOk) = [] ∧
    obsTransfers (handleTimeout demoFinished 60 2000 railOk) = [] ∧
    obsState (declareResult demoFinished 2 GameWinner.White GameEndReason.Resignation
      60 2000 railOk) demoFinished = demoFinished ∧
    obsState (handleTimeout demoFinished 60 2000 railOk) demoFinished = demoFinished :=
  settlement_second_call_rejected demoFinished 2 GameWinner.White GameEndReason.Resignation
    60 2000 railOk rfl

/-- Claim C2: `declare_result` and `handle_timeout` are atomic with fund
distribution: if the distribution step fails, the whole instruction fails,
so the `Finished` transition (winner, finished_at) is not observably
committed and the session keeps its pre-transition state, with no funds
moved. -/
theorem settlement_atomic_on_transfer_failure (st : GameEscrow) (d : Pubkey)
    (w : GameWinner) (r : GameEndReason) (now : Int) (vb : Nat)
    (rail : Transfer → Bool) (e : Err) :
    (distributeFundsDeclare w vb st.player_white st.player_black
        st.fee_collector rail = .error e →
      (∃ e', declareResult st d w r now vb rail = .error e') ∧
      obsState (declareResult st d w r now vb rail) st = st ∧
      obsTransfers (declareResult st d w r now vb rail) = []) ∧
    (distributeFundsTimeout (timeoutWinner st) vb st.player_white st.player_black
        st.fee_collector rail = .error e →
      (∃ e', handleTimeout st now vb rail = .error e') ∧
      obsState (handleTimeout st now vb rail) st = st ∧
      obsTransfers (handleTimeout st now vb rail) = []) := by
  constructor
  · intro hd
    have herr : ∃ e', declareResult st d w r now vb rail = .error e' := by
      cases w <;>
        (unfold declareResult
         simp only [hd]
         split_ifs <;> exact ⟨_, rfl⟩)
    obtain ⟨e', he⟩ := herr
    exact ⟨⟨e', he⟩, by rw [he]; rfl, by rw [he]; rfl⟩
  · intro hd
    have herr : ∃ e', handleTimeout st now vb rail = .error e' := by
      unfold handleTimeout
      simp only [hd]
      split_ifs <;> exact ⟨_, rfl⟩
    obtain ⟨e', he⟩ := herr
    exact ⟨⟨e', he⟩, by rw [he]; rfl, by rw [he]; rfl⟩

theorem settlement_atomic_on_transfer_failure_witness :
    (∃ e', declareResult demoEscrow 2 GameWinner.White GameEndReason.Resignation
      50 2000 railBad = .error e') ∧
    obsState (declareResult demoEscrow 2 GameWinner.White GameEndReason.Resignation
      50 2000 railBad) demoEscrow = demoEscrow ∧
    obsTransfers (declareResult demoEscrow 2 GameWinner.White GameEndReason.Resignation
      50 2000 railBad) = [] :=
  (settlement_atomic_on_transfer_failure demoEscrow 2 GameWinner.White
    GameEndReason.Resignation 50 2000 railBad Err.transferFailed).1 (by decide)

/-- Claim C6: `handle_timeout` is legal only in `InProgress`, succeeds only
when `now - last_move_time` strictly exceeds `time_limit_seconds` (equality
is rejected with `TimeNotExceeded`), and derives the winner from turn
parity: even `move_count` yields `Black`, odd yields `White`. -/
theorem handle_timeout_guards_and_winner (st : GameEscrow) (now : Int)
    (vb : Nat) (rail : Transfer → Bool) :
    (st.game_state ≠ GameState.InProgress →
      handleTimeout st now vb rail = .error (.chess .GameNotInProgress)) ∧
    (st.game_state = GameState.InProgress →
      now - st.last_move_time ≤ st.time_limit_seconds →
      handleTimeout st now vb rail = .error (.chess .TimeNotExceeded)) ∧
    (st.game_state = GameState.InProgress →
      now - st.last_move_time > st.time_limit_seconds →
      ∃ ts, handleTimeout st now vb railOk =
        .ok ({ st with winner := timeoutWinner st
                       game_state := GameState.Finished
                       finished_at := now }, ts) ∧
        timeoutWinner st = (if st.move_count % 2 = 0 then GameWinner.Black
                            else GameWinner.White)) := by
  refine ⟨timeout_guard st now vb rail, ?_, ?_⟩
  · intro h1 h2
    simp only [handleTimeout]
    rw [if_neg (by simp [h1]), if_pos (by omega)]
  · intro h1 h2
    obtain ⟨ts, hts⟩ := distributeTimeout_ok (timeoutWinner st) vb
      st.player_white st.player_black st.fee_collector
      (by unfold timeoutWinner; split_ifs <;> simp)
    refine ⟨ts, ?_, rfl⟩
    simp only [handleTimeout]
    rw [if_neg (by simp [h1]), if_neg (by omega), hts]

theorem handle_timeout_guards_and_winner_witness :
    ∃ ts, handleTimeout demoEscrow 400 2000 railOk =
      .ok ({ demoEscrow with winner := timeoutWinner demoEscrow
                             game_state := GameState.Finished
                             finished_at := 400 }, ts) ∧
      timeoutWinner demoEscrow = (if demoEscrow.move_count % 2 = 0 then GameWinner.Black
                                  else GameWinner.White) :=
  (handle_timeout_guards_and_winner demoEscrow 400 2000 railOk).2.2 rfl (by decide)

/-- Claim C3 (counterexample): for custody 99 with winner `Draw` — a winner
value accepted at settlement — the fee is `floor(99/100) = 0` but the fee
plus the total paid out is 98, not 99: one unit is lost, refuting exact
conservation for every accepted winner. -/
theorem fee_conservation_counterexample :
    distributeFundsDeclare GameWinner.Draw 99 1 2 3 railOk =
      .ok [⟨Slot.vault, Slot.account 1, 49⟩, ⟨Slot.vault, Slot.account 2, 49⟩] ∧
    paidTo [(⟨Slot.vault, Slot.account 1, 49⟩ : Transfer),
            ⟨Slot.vault, Slot.account 2, 49⟩] (Slot.account 3) = 99 / 100 ∧
    sumAmounts [(⟨Slot.vault, Slot.account 1, 49⟩ : Transfer),
                ⟨Slot.vault, Slot.account 2, 49⟩] = 98 ∧ (98 : Nat) ≠ 99 := by
  refine ⟨by decide, by decide, by decide, by decide⟩

/-- Claim C3 (amended): for custody `C` the fee paid equals `floor(C/100)`;
fee plus total payout equals `C` exactly when the winner is `White` or
`Black`; for `Draw` the total is `C` minus the odd unit of the remainder,
`C - (C - C/100) % 2`. -/
theorem fee_and_conservation (w : GameWinner) (C : Nat)
    (white black fc : Pubkey) (ts : List Transfer)
    (hC : C < U64MOD) (hwf : white ≠ fc) (hbf : black ≠ fc)
    (h : distributeFundsDeclare w C white black fc railOk = .ok ts) :
    paidTo ts (Slot.account fc) = C / 100 ∧
    ((w = GameWinner.White ∨ w = GameWinner.Black) → sumAmounts ts = C) ∧
    (w = GameWinner.Draw → sumAmounts ts = C - (C - C / 100) % 2) := by
  rcases Nat.eq_zero_or_pos C with h0 | h0
  · subst h0
    unfold distributeFundsDeclare at h
    rw [if_pos rfl] at h
    cases h
    simp [paidTo, sumAmounts]
  · have hfle : C / 100 ≤ C := Nat.div_le_self _ _
    cases w with
    | None => exact absurd h (fun h => distributeDeclare_none_err C white black fc ts h0 h)
    | White =>
      rw [distributeDeclare_white_eq C white black fc h0 hC] at h
      cases h
      rw [paidTo_append, sumAmounts_append]
      constructor
      · split_ifs with hf <;> simp [paidTo, hwf, Slot.account.injEq] <;> omega
      · refine ⟨fun _ => ?_, by simp⟩
        split_ifs with hf <;> simp [sumAmounts] <;> omega
    | Black =>
      rw [distributeDeclare_black_eq C white black fc h0 hC] at h
      cases h
      rw [paidTo_append, sumAmounts_append]
      constructor
      · split_ifs with hf <;> simp [paidTo, hbf, Slot.account.injEq] <;> omega
      · refine ⟨fun _ => ?_, by simp⟩
        split_ifs with hf <;> simp [sumAmounts] <;> omega
    | Draw =>
      rw [distributeDeclare_draw_eq C white black fc h0 hC] at h
      cases h
      rw [paidTo_append, sumAmounts_append]
      refine ⟨?_, by simp, fun _ => ?_⟩
      · split_ifs with hf hh hh <;>
          simp [paidTo, hwf, hbf, Slot.account.injEq] <;> omega
      · split_ifs with hf hh hh <;> simp [sumAmounts] <;> omega

theorem fee_and_conservation_witness :
    paidTo [(⟨Slot.vault, Slot.account 3, 20⟩ : Transfer),
            ⟨Slot.vault, Slot.account 1, 1980⟩] (Slot.account 3) = 2000 / 100 ∧
    ((GameWinner.White = GameWinner.White ∨ GameWinner.White = GameWinner.Black) →
      sumAmounts [(⟨Slot.vault, Slot.account 3, 20⟩ : Transfer),
                  ⟨Slot.vault, Slot.account 1, 1980⟩] = 2000) ∧
    (GameWinner.White = GameWinner.Draw →
      sumAmounts [(⟨Slot.vault, Slot.account 3, 20⟩ : Transfer),
                  ⟨Slot.vault, Slot.account 1, 1980⟩] = 2000 - (2000 - 2000 / 100) % 2) :=
  fee_and_conservation GameWinner.White 2000 1 2 3
    [⟨Slot.vault, Slot.account 3, 20⟩, ⟨Slot.vault, Slot.account 1, 1980⟩]
    (by decide) (by decide) (by decide) (by decide)

/-- Claim C8: a `Draw` settlement over remainder `R = C - C/100` pays each
player exactly `floor(R/2)`; for odd `R` the leftover unit satisfies
`2*floor(R/2) < R` and is assigned to neither player. -/
theorem draw_split_law (C : Nat) (white black fc : Pubkey) (ts : List Transfer)
    (hC : C < U64MOD) (hwb : white ≠ black) (hwf : white ≠ fc) (hbf : black ≠ fc)
    (h : distributeFundsDeclare GameWinner.Draw C white black fc railOk = .ok ts) :
    paidTo ts (Slot.account white) = (C - C / 100) / 2 ∧
    paidTo ts (Slot.account black) = (C - C / 100) / 2 ∧
    ((C - C / 100) % 2 = 1 →
      2 * ((C - C / 100) / 2) < C - C / 100) := by
  rcases Nat.eq_zero_or_pos C with h0 | h0
  · subst h0
    unfold distributeFundsDeclare at h
    rw [if_pos rfl] at h
    cases h
    simp [paidTo]
  · rw [distributeDeclare_draw_eq C white black fc h0 hC] at h
    cases h
    rw [paidTo_append, paidTo_append]
    refine ⟨?_, ?_, fun hodd => by omega⟩ <;>
      split_ifs with hf hh hh <;>
        simp [paidTo, hwb, hwf, hbf, Ne.symm hwb, Ne.symm hwf, Ne.symm hbf,
          Slot.account.injEq] <;> omega

theorem draw_split_law_witness :
    paidTo [(⟨Slot.vault, Slot.account 3, 20⟩ : Transfer),
            ⟨Slot.vault, Slot.account 1, 990⟩,
            ⟨Slot.vault, Slot.account 2, 990⟩] (Slot.account 1) = (2000 - 2000 / 100) / 2 ∧
    paidTo [(⟨Slot.vault, Slot.account 3, 20⟩ : Transfer),
            ⟨Slot.vault, Slot.account 1, 990⟩,
            ⟨Slot.vault, Slot.account 2, 990⟩] (Slot.account 2) = (2000 - 2000 / 100) / 2 ∧
    ((2000 - 2000 / 100) % 2 = 1 →
      2 * ((2000 - 2000 / 100) / 2) < 2000 - 2000 / 100) :=
  draw_split_law 2000 1 2 3
    [⟨Slot.vault, Slot.account 3, 20⟩, ⟨Slot.vault, Slot.account 1, 990⟩,
     ⟨Slot.vault, Slot.account 2, 990⟩]
    (by decide) (by decide) (by decide) (by decide) (by decide)

/-- Claim C4: `declare_result` accepts exactly the (winner, reason,
declarer) triples of the authorization matrix: a win is declarable only by
the opponent with reason Resignation or by the winner themself with reason
Timeout or Checkmate, a Draw only with reason Agreement or Stalemate by a
participant, and winner `None` never; in particular the black player cannot
declare a White timeout win. -/
theorem declare_result_authorization_matrix (st : GameEscrow)
    (declarer : Pubkey) (winner : GameWinner) (reason : GameEndReason)
    (now : Int) (vb : Nat) (hst : st.game_state = GameState.InProgress) :
    ((∃ out, declareResult st declarer winner reason now vb railOk = .ok out) ↔
      authMatrixSpec winner reason declarer st.player_white st.player_black) ∧
    (st.player_white ≠ st.player_black →
      declareResult st st.player_black GameWinner.White GameEndReason.Timeout
        now vb railOk = .error (.chess .InvalidWinnerDeclaration)) := by
  obtain ⟨tsW, hWk⟩ := distributeDeclare_ok GameWinner.White vb
    st.player_white st.player_black st.fee_collector (by simp)
  obtain ⟨tsB, hBk⟩ := distributeDeclare_ok GameWinner.Black vb
    st.player_white st.player_black st.fee_collector (by simp)
  obtain ⟨tsD, hDk⟩ := distributeDeclare_ok GameWinner.Draw vb
    st.player_white st.player_black st.fee_collector (by simp)
  constructor
  · by_cases hw : declarer = st.player_white <;>
      by_cases hb : declarer = st.player_black <;>
        cases winner <;> cases reason <;>
          simp [declareResult, authMatrixSpec, hst, hw, hb, hWk, hBk, hDk] <;>
            rcases eq_or_ne st.player_white st.player_black with hwb | hwb <;>
              simp [hwb, eq_comm, hWk, hBk, hDk]
  · intro hne
    simp [declareResult, authMatrixSpec, hst, hne, Ne.symm hne]

theorem declare_result_authorization_matrix_witness :
    ((∃ out, declareResult demoEscrow 2 GameWinner.White GameEndReason.Resignation
        50 2000 railOk = .ok out) ↔
      authMatrixSpec GameWinner.White GameEndReason.Resignation 2
        demoEscrow.player_white demoEscrow.player_black) ∧
    (demoEscrow.player_white ≠ demoEscrow.player_black →
      declareResult demoEscrow demoEscrow.player_black GameWinner.White
        GameEndReason.Timeout 50 2000 railOk =
        .error (.chess .InvalidWinnerDeclaration)) :=
  declare_result_authorization_matrix demoEscrow 2 GameWinner.White
    GameEndReason.Resignation 50 2000 rfl

lemma declareResult_ok_state (st : GameEscrow) (d : Pubkey) (w : GameWinner)
    (r : GameEndReason) (now : Int) (vb : Nat) (rail : Transfer → Bool)
    (s' : GameEscrow) (ts : List Transfer)
    (h : declareResult st d w r now vb rail = .ok (s', ts)) :
    s' = { st with winner := w, game_state := GameState.Finished,
                   finished_at := now } := by
  simp only [declareResult] at h
  cases w
  all_goals split_ifs at h <;> try (cases h)
  all_goals (
    first
    | (cases hdist : distributeFundsDeclare GameWinner.White vb st.player_white
          st.player_black st.fee_collector rail with
       | error e => rw [hdist] at h; cases h
       | ok ts2 => rw [hdist] at h; cases h; rfl)
    | (cases hdist : distributeFundsDeclare GameWinner.Black vb st.player_white
          st.player_black st.fee_collector rail with
       | error e => rw [hdist] at h; cases h
       | ok ts2 => rw [hdist] at h; cases h; rfl)
    | (cases hdist : distributeFundsDeclare GameWinner.Draw vb st.player_white
          st.player_black st.fee_collector rail with
       | error e => rw [hdist] at h; cases h
       | ok ts2 => rw [hdist] at h; cases h; rfl))

lemma handleTimeout_ok_state (st : GameEscrow) (now : Int) (vb : Nat)
    (rail : Transfer → Bool) (s' : GameEscrow) (ts : List Transfer)
    (h : handleTimeout st now vb rail = .ok (s', ts)) :
    s' = { st with winner := timeoutWinner st, game_state := GameState.Finished,
                   finished_at := now } := by
  simp only [handleTimeout] at h
  split_ifs at h <;> try (cases h)
  all_goals (
    cases hdist : distributeFundsTimeout (timeoutWinner st) vb st.player_white
        st.player_black st.fee_collector rail with
    | error e => rw [hdist] at h; cases h
    | ok ts2 => rw [hdist] at h; cases h; rfl)

lemma cancelGame_ok_state (st : GameEscrow) (p : Pubkey) (vb : Nat)
    (rail : Transfer → Bool) (s' : GameEscrow) (ts : List Transfer)
    (h : cancelGame st p vb rail = .ok (s', ts)) :
    s' = { st with game_state := GameState.Cancelled } := by
  simp only [cancelGame] at h
  split_ifs at h <;> try (cases h <;> rfl)
  all_goals try (
    cases h1 : doTransfer rail Slot.vault (Slot.account st.player_white)
        st.stake_amount <;>
      rw [h1] at h <;> try (cases h <;> rfl))
  all_goals try (
    cases h2 : doTransfer rail Slot.vault (Slot.account st.player_black)
        st.stake_amount <;>
      rw [h2] at h <;> try (cases h <;> rfl))
  all_goals (cases h <;> rfl)

lemma depositStake_ok_fields (st : GameEscrow) (p : Pubkey) (now : Int)
    (rail : Transfer → Bool) (s' : GameEscrow) (ts : List Transfer)
    (h : depositStake st p now rail = .ok (s', ts)) :
    s'.stake_amount = st.stake_amount ∧
    s'.total_deposited = (st.total_deposited + st.stake_amount) % U64MOD ∧
    ((p = st.player_white ∧ st.white_deposited = false ∧
        s'.white_deposited = true ∧ s'.black_deposited = st.black_deposited) ∨
     (p ≠ st.player_white ∧ st.black_deposited = false ∧
        s'.black_deposited = true ∧ s'.white_deposited = st.white_deposited)) ∧
    ts = [⟨Slot.account p, Slot.vault, st.stake_amount⟩] := by
  simp only [depositStake] at h
  split_ifs at h <;> try (cases h)
  all_goals (
    cases ht : doTransfer rail (Slot.account p) Slot.vault st.stake_amount with
    | error e => rw [ht] at h; cases h
    | ok t =>
      have htEq : t = ⟨Slot.account p, Slot.vault, st.stake_amount⟩ := by
        simp only [doTransfer] at ht
        split_ifs at ht <;> cases ht <;> rfl
      subst htEq
      rw [ht] at h
      cases h
      refine ⟨rfl, rfl, ?_, rfl⟩
      first
      | exact Or.inl ⟨by assumption, by simp_all, rfl, rfl⟩
      | exact Or.inr ⟨by assumption, by simp_all, rfl, rfl⟩)

set_option maxHeartbeats 1000000 in
/-- Claim C5: every instruction preserves the deposit-ledger equation
`total_deposited = stake*(white_deposited?1:0) + stake*(black_deposited?1:0)`
(in `u64` arithmetic). -/
theorem deposit_ledger_invariant (o : Op) (st : GameEscrow) (now : Int)
    (rail : Transfer → Bool) (s' : GameEscrow) (ts : List Transfer)
    (hInv : Inv st) (h : runOp o st now rail = .ok (s', ts)) : Inv s' := by
  cases o with
  | init room stake tl p fc =>
    simp only [runOp, initializeGame] at h
    split_ifs at h <;> cases h <;> simp [Inv]
  | join p =>
    simp only [runOp, joinGame] at h
    split_ifs at h <;> cases h <;> exact hInv
  | deposit p =>
    obtain ⟨h1, h2, h3, h4⟩ := depositStake_ok_fields st p now rail s' ts h
    simp only [Inv] at hInv ⊢
    rcases h3 with ⟨hpw, hw0, hw1, hb1⟩ | ⟨hpw, hb0, hb1, hw1⟩ <;>
      cases hbd : st.black_deposited <;>
        cases hwd : st.white_deposited <;>
          simp_all [U64MOD_eq] <;> omega
  | record p a =>
    simp only [runOp, recordMove] at h
    split_ifs at h <;> cases h <;> exact hInv
  | declare d w r vb =>
    rw [declareResult_ok_state st d w r now vb rail s' ts h]
    exact hInv
  | timeout vb =>
    rw [handleTimeout_ok_state st now vb rail s' ts h]
    exact hInv
  | cancel p vb =>
    rw [cancelGame_ok_state st p vb rail s' ts h]
    exact hInv

theorem deposit_ledger_invariant_witness : Inv demoDeposited :=
  deposit_ledger_invariant (Op.deposit 1) demoWaiting 5 railOk demoDeposited
    [⟨Slot.account 1, Slot.vault, 1000⟩] (by decide) (by decide)

set_option maxHeartbeats 1000000 in
lemma record_checkmate_shape (st : GameEscrow) (p : Pubkey) (now : Int)
    (a : MoveArgs) (s' : GameEscrow) (ts : List Transfer)
    (h : recordMove st p now a = .ok (s', ts)) (hc : a.is_checkmate = true) :
    s'.game_state = GameState.Finished ∧
    s'.winner = (if p = st.player_white then GameWinner.White
                 else GameWinner.Black) ∧
    s'.finished_at = now ∧ ts = [] := by
  simp only [recordMove] at h
  split_ifs at h <;> cases h <;> first
    | exact ⟨rfl, by simp_all, rfl, rfl⟩
    | simp_all

/-- Claim C7: a successful `record_move` whose `is_checkmate` argument is
true immediately finalizes the session: state `Finished`, winner the moving
player (White when the mover is the white player), `finished_at = now`; a
further `declare_result` is then rejected by the state guard, so the
short-circuit is idempotent with the settlement path. -/
theorem record_move_checkmate_finalizes (st : GameEscrow) (p : Pubkey)
    (now : Int) (a : MoveArgs) (s' : GameEscrow) (ts : List Transfer)
    (d : Pubkey) (w : GameWinner) (r : GameEndReason) (now2 : Int) (vb : Nat)
    (rail : Transfer → Bool)
    (h : recordMove st p now a = .ok (s', ts)) (hc : a.is_checkmate = true) :
    s'.game_state = GameState.Finished ∧
    s'.winner = (if p = st.player_white then GameWinner.White
                 else GameWinner.Black) ∧
    s'.finished_at = now ∧
    declareResult s' d w r now2 vb rail = .error (.chess .GameNotInProgress) := by
  obtain ⟨h1, h2, h3, h4⟩ := record_checkmate_shape st p now a s' ts h hc
  exact ⟨h1, h2, h3, declare_guard s' d w r now2 vb rail (by simp [h1])⟩

theorem record_move_checkmate_finalizes_witness :
    demoMated.game_state = GameState.Finished ∧
    demoMated.winner = (if 1 = demoEscrow.player_white then GameWinner.White
                        else GameWinner.Black) ∧
    demoMated.finished_at = 20 ∧
    declareResult demoMated 2 GameWinner.Black GameEndReason.Resignation
      30 2000 railOk = .error (.chess .GameNotInProgress) :=
  record_move_checkmate_finalizes demoEscrow 1 20 demoMate demoMated [] 2
    GameWinner.Black GameEndReason.Resignation 30 2000 railOk
    (by decide) (by decide)

/-- Claim C9: a session finalized through the checkmate short-circuit moves
no funds in that call, and — being `Finished` — every later
`declare_result`/`handle_timeout` is rejected by the state guard and no
instruction of the program ever moves its custody out of the vault. -/
theorem checkmate_session_funds_frozen (st : GameEscrow) (p : Pubkey)
    (now : Int) (a : MoveArgs) (s' : GameEscrow) (ts : List Transfer)
    (o : Op) (now2 : Int) (rail2 : Transfer → Bool)
    (d : Pubkey) (w : GameWinner) (r : GameEndReason) (now3 : Int) (vb : Nat)
    (rail3 : Transfer → Bool)
    (h : recordMove st p now a = .ok (s', ts)) (hc : a.is_checkmate = true) :
    ts = [] ∧
    s'.game_state = GameState.Finished ∧
    declareResult s' d w r now3 vb rail3 = .error (.chess .GameNotInProgress) ∧
    handleTimeout s' now3 vb rail3 = .error (.chess .GameNotInProgress) ∧
    obsTransfers (runOp o s' now2 rail2) = [] := by
  obtain ⟨h1, h2, h3, h4⟩ := record_checkmate_shape st p now a s' ts h hc
  exact ⟨h4, h1,
    declare_guard s' d w r now3 vb rail3 (by simp [h1]),
    timeout_guard s' now3 vb rail3 (by simp [h1]),
    finished_no_transfers o s' now2 rail2 h1⟩

theorem checkmate_session_funds_frozen_witness :
    ([] : List Transfer) = [] ∧
    demoMated.game_state = GameState.Finished ∧
    declareResult demoMated 1 GameWinner.White GameEndReason.Checkmate
      40 2000 railOk = .error (.chess .GameNotInProgress) ∧
    handleTimeout demoMated 40 2000 railOk = .error (.chess .GameNotInProgress) ∧
    obsTransfers (runOp (Op.timeout 2000) demoMated 1000 railOk) = [] :=
  checkmate_session_funds_frozen demoEscrow 1 20 demoMate demoMated []
    (Op.timeout 2000) 1000 railOk 1 GameWinner.White GameEndReason.Checkmate
    40 2000 railOk (by decide) (by decide)

/-- Claim C10: `initialize_game` leaves `player_black` at the default key
while the session waits for players, and `deposit_stake`'s participant check
compares the caller to that field: a caller with the default identity is
accepted as the black participant and its deposit sets `black_deposited`,
without any `join_game` having occurred. -/
theorem default_pubkey_black_deposit (room_id : String) (stake : Nat)
    (tl : Int) (p fc : Pubkey) (now0 : Int) (s0 : GameEscrow)
    (ts0 : List Transfer) (st : GameEscrow) (now : Int)
    (hinit : initializeGame room_id stake tl p fc now0 = .ok (s0, ts0))
    (hs : st.game_state = GameState.WaitingForPlayers)
    (hb : st.player_black = pkDefault)
    (hw : st.player_white ≠ pkDefault)
    (hd : st.black_deposited = false) :
    s0.player_black = pkDefault ∧
    s0.game_state = GameState.WaitingForPlayers ∧
    ∃ s', depositStake st pkDefault now railOk =
        .ok (s', [⟨Slot.account pkDefault, Slot.vault, st.stake_amount⟩]) ∧
      s'.black_deposited = true := by
  have hi12 : s0.player_black = pkDefault ∧
      s0.game_state = GameState.WaitingForPlayers := by
    simp only [initializeGame] at hinit
    split_ifs at hinit <;> cases hinit <;> exact ⟨rfl, rfl⟩
  refine ⟨hi12.1, hi12.2, ?_⟩
  have hnw : ¬ (pkDefault = st.player_white) := fun hh => hw hh.symm
  simp only [depositStake, doTransfer, railOk]
  rw [if_neg (by simp [hs])]
  rw [if_neg (not_not_intro (Or.inr hb.symm))]
  rw [if_neg (by simp [hnw, hd])]
  simp only [hnw, if_false, if_true]
  split_ifs with hboth
  · exact ⟨_, rfl, rfl⟩
  · exact ⟨_, rfl, rfl⟩

theorem default_pubkey_black_deposit_witness :
    demoWaiting.player_black = pkDefault ∧
    demoWaiting.game_state = GameState.WaitingForPlayers ∧
    ∃ s', depositStake demoWaiting pkDefault 5 railOk =
        .ok (s', [⟨Slot.account pkDefault, Slot.vault, demoWaiting.stake_amount⟩]) ∧
      s'.black_deposited = true :=
  default_pubkey_black_deposit "room1" 1000 300 1 3 0 demoWaiting [] demoWaiting 5
    (by decide) rfl rfl (by decide) rfl

end ChessEscrow
